import Mathlib

/-!
Shallow embedding of the spyns Metropolis simulation engine for the classical
Heisenberg model.  The definitions mirror, function by function, the Cython
sources `spyns/model/heisenberg_cython.pyx`,
`spyns/algorithms/metropolis/heisenberg_cython.pyx`, the Metropolis base
module (`pick_site` / `accept_or_reject` / `proposal_distribution`) and the
random-number wrapper `spyns/random_numbers/distribution.pxd`.

Machine doubles are embedded as elements of an arbitrary linear ordered
field (exact arithmetic); the transcendental functions from `libc.math`
(`sin`, `cos`, `acos`, `exp`, `pi`) and numpy's Euclidean norm are passed in
as an explicit record of function parameters, instantiated with the real
functions where a claim needs their actual properties.  The `std::mt19937`
engine is modelled abstractly: the sequences of raw draws it produces are an
arbitrary function of the seed, consumed one element at a time through
position counters, which captures exactly the determinism contract of the
engine.  `std::uniform_int_distribution[long](a, b)` is modelled by its
documented contract: it maps each raw engine draw into the inclusive range
`[a, b]`, every value of which is reachable.
-/

namespace Spyns

variable {α : Type} [LinearOrderedField α]

/-- Three-component spin vector, mirroring the `vector[double]` triples and
the parallel `x`/`y`/`z` arrays of the source. -/
structure Vec3 (α : Type) where
  x : α
  y : α
  z : α
  deriving DecidableEq

/-- Componentwise sum of two spin vectors. -/
def Vec3.add (a b : Vec3 α) : Vec3 α :=
  ⟨a.x + b.x, a.y + b.y, a.z + b.z⟩

/-- Componentwise difference of two spin vectors. -/
def Vec3.sub (a b : Vec3 α) : Vec3 α :=
  ⟨a.x - b.x, a.y - b.y, a.z - b.z⟩

/-- Euclidean dot product of two spin vectors. -/
def dot3 (a b : Vec3 α) : α :=
  a.x * b.x + a.y * b.y + a.z * b.z

/-- Squared Euclidean norm of a spin vector. -/
def normSq (a : Vec3 α) : α :=
  dot3 a a

/-- `LookupTables_t` from `spyns/data_cython.pxd`: the flattened, read-only
neighbor tables.  The C arrays indexed by `long` are embedded as total
functions on `ℕ`. -/
structure LookupTables_t (α : Type) where
  sublattice_table : ℕ → ℕ
  neighbors_table : ℕ → ℕ
  neighbors_count : ℕ → ℕ
  neighbors_lookup_index : ℕ → ℕ
  interaction_parameters_table : ℕ → α
  number_sites : ℕ
  number_sublattices : ℕ

/-- `HeisenbergState_t`: the three parallel per-site spin component arrays. -/
structure HeisenbergState_t (α : Type) where
  x : ℕ → α
  y : ℕ → α
  z : ℕ → α

/-- `Estimators_t`: the running estimators.  The one-element arrays
`energy[0]`, `magnetization[0]`, `number_samples[0]` of the source are
embedded as scalars; `spin_vector` is indexed by sublattice. -/
structure Estimators_t (α : Type) where
  number_samples : ℕ
  energy : α
  spin_vector : ℕ → Vec3 α
  magnetization : α

/-- `SimulationParameters_t` plus the `snapshot_filepath` flag read from the
python-level parameter container: whether a snapshot destination is
configured. -/
structure SimulationParameters_t (α : Type) where
  sample_interval : ℕ
  temperature : α
  sweeps : ℕ
  equilibration_sweeps : ℕ
  snapshot_filepath : Bool

/-- Modelled from the spec: one record appended by `update_trace` (whose body
lives in `spyns.statistics`, outside the given sources): the spec states a
trace record carries `(sweep_index, energy, spin_vector snapshot,
magnetization)`. -/
structure TraceRecord (α : Type) where
  sweep : ℕ
  energy : α
  spin_vector : ℕ → Vec3 α
  magnetization : α

/-- Modelled from the spec: the append-only simulation trace and the sequence
of snapshot-write requests issued to the persistence collaborator
(`dump_state_snapshot_to_disk`, outside the given sources). -/
structure SimulationTrace_t (α : Type) where
  records : List (TraceRecord α)
  snapshots : List ℕ

/-- `RandomNumberGenerator` from `spyns/random_numbers/distribution.pxd`.
The mt19937 engine state is modelled by its two raw draw streams together
with position counters; `_randint_low` / `_randint_high` are the stored
python-visible bound attributes, while `randint_dist_a` / `randint_dist_b`
are the inclusive parameters handed to the currently built
`uniform_int_distribution`. -/
structure RandomNumberGenerator (α : Type) where
  uniformStream : ℕ → α
  engineIntStream : ℕ → ℕ
  uniformCount : ℕ
  intCount : ℕ
  uniform_low : α
  uniform_high : α
  randint_low : ℕ
  randint_high : ℕ
  randint_dist_a : ℕ
  randint_dist_b : ℕ

/-- `RandomNumberGenerator.__cinit__(seed, number_sites)`: the engine is
seeded once (its draw streams are a function of the seed), the uniform
distribution is built over `[0, 1)`, and the integer distribution over the
inclusive range `[0, number_sites - 1]`; the stored bound attributes are set
to `(0.0, 1.0)` and `(0, number_sites)`. -/
def RandomNumberGenerator.cinit (uniformEngine : ℕ → ℕ → α)
    (intEngine : ℕ → ℕ → ℕ) (seed : ℕ) (number_sites : ℕ) :
    RandomNumberGenerator α :=
  { uniformStream := uniformEngine seed
    engineIntStream := intEngine seed
    uniformCount := 0
    intCount := 0
    uniform_low := 0
    uniform_high := 1
    randint_low := 0
    randint_high := number_sites
    randint_dist_a := 0
    randint_dist_b := number_sites - 1 }

/-- `uniform()`: one draw from the uniform real distribution over `[0,1)`;
consumes one engine position. -/
def RandomNumberGenerator.uniform (r : RandomNumberGenerator α) :
    α × RandomNumberGenerator α :=
  (r.uniformStream r.uniformCount, { r with uniformCount := r.uniformCount + 1 })

/-- `randint()`: one draw from the currently built integer distribution,
which maps the raw engine draw into the inclusive range
`[randint_dist_a, randint_dist_b]`; consumes one engine position. -/
def RandomNumberGenerator.randint (r : RandomNumberGenerator α) :
    ℕ × RandomNumberGenerator α :=
  (r.randint_dist_a +
      r.engineIntStream r.intCount % (r.randint_dist_b - r.randint_dist_a + 1),
    { r with intCount := r.intCount + 1 })

/-- The `randint_bounds` property getter: returns the stored attributes. -/
def RandomNumberGenerator.randint_bounds (r : RandomNumberGenerator α) :
    ℕ × ℕ :=
  (r.randint_low, r.randint_high)

/-- The `randint_bounds` property setter: stores the pair and rebuilds the
integer distribution with it as inclusive parameters. -/
def RandomNumberGenerator.set_randint_bounds (r : RandomNumberGenerator α)
    (value : ℕ × ℕ) : RandomNumberGenerator α :=
  { r with
    randint_low := value.1
    randint_high := value.2
    randint_dist_a := value.1
    randint_dist_b := value.2 }

/-- The `libc.math` / numpy function parameters of the engine. -/
structure MathFns (α : Type) where
  sin : α → α
  cos : α → α
  acos : α → α
  exp : α → α
  sqrt : α → α
  pi : α

/-- `SimulationHeisenbergData_t`: the full simulation data container. -/
structure SimulationData (α : Type) where
  random_number_generator : RandomNumberGenerator α
  parameters : SimulationParameters_t α
  lookup_tables : LookupTables_t α
  state : HeisenbergState_t α
  trace : SimulationTrace_t α
  estimators : Estimators_t α

/-- `NeighborStates_t`: transient container of a site's neighbor spin
components and bond interaction parameters. -/
structure NeighborStates_t (α : Type) where
  x : List α
  y : List α
  z : List α
  interaction_parameters : List α

/-- `TrialFlip_t`: the proposal record of one trial flip. -/
structure TrialFlip_t (α : Type) where
  energy_difference : α
  current_spin_vector : Vec3 α
  trial_spin_vector : Vec3 α

/-- `get_site_spin_vector`: read the three spin components of a site. -/
def get_site_spin_vector (site_index : ℕ) (data : SimulationData α) :
    Vec3 α :=
  ⟨data.state.x site_index, data.state.y site_index, data.state.z site_index⟩

/-- `lookup_neighbor_states`: gather, for each `k` in the site's neighbor run
`[lookup_start, lookup_start + number_neighbors)`, the spin components of
`neighbors_table[k]` and the bond parameter `interaction_parameters_table[k]`
into a transient container. -/
def lookup_neighbor_states (site_index : ℕ) (data : SimulationData α) :
    NeighborStates_t α :=
  let number_neighbors := data.lookup_tables.neighbors_count site_index
  let lookup_start := data.lookup_tables.neighbors_lookup_index site_index
  { x := (List.range number_neighbors).map fun neighbor =>
      data.state.x (data.lookup_tables.neighbors_table (lookup_start + neighbor))
    y := (List.range number_neighbors).map fun neighbor =>
      data.state.y (data.lookup_tables.neighbors_table (lookup_start + neighbor))
    z := (List.range number_neighbors).map fun neighbor =>
      data.state.z (data.lookup_tables.neighbors_table (lookup_start + neighbor))
    interaction_parameters := (List.range number_neighbors).map fun neighbor =>
      data.lookup_tables.interaction_parameters_table (lookup_start + neighbor) }

/-- `compute_energy_of_spin_vector_at_site`: score a spin vector against the
site's gathered neighborhood, accumulating
`interaction_parameter * (dot of the spin with the neighbor spin)` over the
neighbor run. -/
def compute_energy_of_spin_vector_at_site (site_spin : Vec3 α)
    (site_index : ℕ) (data : SimulationData α) : α :=
  let number_neighbors := data.lookup_tables.neighbors_count site_index
  let neighbor_states := lookup_neighbor_states site_index data
  ∑ neighbor ∈ Finset.range number_neighbors,
    neighbor_states.interaction_parameters.getD neighbor 0 *
      (site_spin.x * neighbor_states.x.getD neighbor 0 +
        site_spin.y * neighbor_states.y.getD neighbor 0 +
        site_spin.z * neighbor_states.z.getD neighbor 0)

/-- `compute_site_energy`: the energy of a site's current spin in its
neighborhood. -/
def compute_site_energy (site_index : ℕ) (data : SimulationData α) : α :=
  compute_energy_of_spin_vector_at_site
    (get_site_spin_vector site_index data) site_index data

/-- `compute_total_energy`: sum of all site energies, divided by two. -/
def compute_total_energy (data : SimulationData α) : α :=
  (∑ site_index ∈ Finset.range data.lookup_tables.number_sites,
    compute_site_energy site_index data) / 2

/-- `sample_random_spin_vector`: draw `theta = 2·pi·u₁` and
`phi = acos(2·u₂ - 1)` from two consecutive uniform draws and convert to
Cartesian components. -/
def sample_random_spin_vector (fns : MathFns α) (data : SimulationData α) :
    Vec3 α × RandomNumberGenerator α :=
  let u1 := data.random_number_generator.uniform
  let theta := 2 * fns.pi * u1.1
  let u2 := u1.2.uniform
  let phi := fns.acos (2 * u2.1 - 1)
  let sin_phi := fns.sin phi
  let cos_phi := fns.cos phi
  let sin_theta := fns.sin theta
  let cos_theta := fns.cos theta
  (⟨sin_phi * cos_theta, sin_phi * sin_theta, cos_phi⟩, u2.2)

/-- `flip`: score the current spin, sample a trial spin, score it in the
same (unmutated) neighborhood, and record the energy difference. -/
def flip (fns : MathFns α) (site_index : ℕ) (data : SimulationData α) :
    TrialFlip_t α × RandomNumberGenerator α :=
  let current_spin_vector := get_site_spin_vector site_index data
  let site_energy_preflip :=
    compute_energy_of_spin_vector_at_site current_spin_vector site_index data
  let sampled := sample_random_spin_vector fns data
  let site_energy_postflip :=
    compute_energy_of_spin_vector_at_site sampled.1 site_index data
  ({ energy_difference := site_energy_postflip - site_energy_preflip
     current_spin_vector := current_spin_vector
     trial_spin_vector := sampled.1 }, sampled.2)

/-- `keep_flip_and_update_state`: overwrite the site's spin with the trial
spin, add the energy difference to the running energy, and add the spin
change to the site's sublattice row of the running spin-vector sums. -/
def keep_flip_and_update_state (data : SimulationData α) (site_index : ℕ)
    (trial_flip : TrialFlip_t α) : SimulationData α :=
  let sublattice_index := data.lookup_tables.sublattice_table site_index
  let spin_vector_change :=
    trial_flip.trial_spin_vector.sub trial_flip.current_spin_vector
  { data with
    state :=
      { x := Function.update data.state.x site_index trial_flip.trial_spin_vector.x
        y := Function.update data.state.y site_index trial_flip.trial_spin_vector.y
        z := Function.update data.state.z site_index trial_flip.trial_spin_vector.z }
    estimators :=
      { data.estimators with
        energy := data.estimators.energy + trial_flip.energy_difference
        spin_vector := Function.update data.estimators.spin_vector
          sublattice_index
          ((data.estimators.spin_vector sublattice_index).add
            spin_vector_change) } }

/-- `pick_site`: one draw of the integer distribution selects the site. -/
def pick_site (data : SimulationData α) : ℕ × RandomNumberGenerator α :=
  data.random_number_generator.randint

/-- `proposal_distribution`: the Boltzmann factor
`exp(-energy_difference / temperature)`. -/
def proposal_distribution (fns : MathFns α) (energy_difference : α)
    (temperature : α) : α :=
  fns.exp (-energy_difference / temperature)

/-- `accept_or_reject`: accept by default; when the energy difference is
nonnegative, consume one uniform draw and accept exactly when it is at most
the proposal probability. -/
def accept_or_reject (fns : MathFns α) (temperature : α)
    (energy_difference : α) (rng : RandomNumberGenerator α) :
    Bool × RandomNumberGenerator α :=
  if 0 ≤ energy_difference then
    let acceptance_probability :=
      proposal_distribution fns energy_difference temperature
    let drawn := rng.uniform
    (decide (drawn.1 ≤ acceptance_probability), drawn.2)
  else
    (true, rng)

/-- `step` from the Metropolis Heisenberg module: pick a site, propose a
flip, accept or reject, and on acceptance keep the flip and update the
running state. -/
def step (fns : MathFns α) (data : SimulationData α) : SimulationData α :=
  let picked := pick_site data
  let data1 := { data with random_number_generator := picked.2 }
  let flipped := flip fns picked.1 data1
  let data2 := { data1 with random_number_generator := flipped.2 }
  let accepted := accept_or_reject fns data2.parameters.temperature
    flipped.1.energy_difference data2.random_number_generator
  let data3 := { data2 with random_number_generator := accepted.2 }
  if accepted.1 then keep_flip_and_update_state data3 picked.1 flipped.1
  else data3

/-- The magnetization recomputed at a sampling point: the Euclidean norm
(`np.linalg.norm`) of the componentwise sum, over the sublattices, of the
running spin-vector sums. -/
def sampleMagnetization (fns : MathFns α) (data : SimulationData α) : α :=
  let sx := ∑ s ∈ Finset.range data.lookup_tables.number_sublattices,
    (data.estimators.spin_vector s).x
  let sy := ∑ s ∈ Finset.range data.lookup_tables.number_sublattices,
    (data.estimators.spin_vector s).y
  let sz := ∑ s ∈ Finset.range data.lookup_tables.number_sublattices,
    (data.estimators.spin_vector s).z
  fns.sqrt (sx * sx + sy * sy + sz * sz)

/-- The record appended at a sampling point (derived observer of the
sampling block; the record layout is modelled from the spec, see
`TraceRecord`). -/
def traceRecordOf (fns : MathFns α) (data : SimulationData α)
    (sweep_index : ℕ) : TraceRecord α :=
  { sweep := sweep_index
    energy := data.estimators.energy
    spin_vector := data.estimators.spin_vector
    magnetization := sampleMagnetization fns data }

/-- The sampling block of `sweep`: recompute the magnetization as the
Euclidean norm of the sum over sublattices of the running spin-vector sums,
increment the sample counter, append a trace record (`update_trace`,
modelled from the spec), and, when a snapshot destination is configured,
request a snapshot write tagged `sweep_index + 1`. -/
def take_sample (fns : MathFns α) (data : SimulationData α)
    (sweep_index : ℕ) : SimulationData α :=
  let est :=
    { data.estimators with
      magnetization := sampleMagnetization fns data
      number_samples := data.estimators.number_samples + 1 }
  let record : TraceRecord α :=
    { sweep := sweep_index
      energy := est.energy
      spin_vector := est.spin_vector
      magnetization := est.magnetization }
  let traced := { data.trace with records := data.trace.records ++ [record] }
  let traced2 :=
    if data.parameters.snapshot_filepath then
      { traced with snapshots := traced.snapshots ++ [sweep_index + 1] }
    else traced
  { data with estimators := est, trace := traced2 }

/-- `sweep`: one pass of `number_sites` Metropolis steps followed by the
conditional sampling block.  The parameters are never written, so reading
`sample_interval` from the shared mutable container is reading it from the
pre-sweep value. -/
def sweep (fns : MathFns α) (data : SimulationData α) (sweep_index : ℕ)
    (equilibration_run : Bool) : SimulationData α :=
  let number_sites := data.lookup_tables.number_sites
  let stepped := (List.range number_sites).foldl (fun d _ => step fns d) data
  if sweep_index % data.parameters.sample_interval = 0 ∧
      equilibration_run = false then
    take_sample fns stepped sweep_index
  else stepped

/-- `run_sweeps`: run `equilibration_sweeps` sweeps when equilibrating, else
`sweeps` sweeps, sequentially in sweep-index order. -/
def run_sweeps (fns : MathFns α) (data : SimulationData α)
    (equilibration_run : Bool) : SimulationData α :=
  let sweeps :=
    if equilibration_run then data.parameters.equilibration_sweeps
    else data.parameters.sweeps
  (List.range sweeps).foldl
    (fun d sweep_index => sweep fns d sweep_index equilibration_run) data

/-! ### Evaluation of the gathered-neighborhood energy loop -/

/-- Reading a mapped range list with a default recovers the mapped function
below the length. -/
lemma getD_map_range {β : Type} (f : ℕ → β) {n k : ℕ} (h : k < n) (d : β) :
    ((List.range n).map f).getD k d = f k := by
  rw [List.getD_eq_getElem?_getD]
  simp [List.getElem?_map, List.getElem?_range h]

/-- The gathered-container energy loop of
`compute_energy_of_spin_vector_at_site` evaluates to the direct sum over the
site's neighbor run of `interaction_parameter` times the dot product with the
neighbor's current spin. -/
lemma compute_energy_eval (site_spin : Vec3 α) (site_index : ℕ)
    (data : SimulationData α) :
    compute_energy_of_spin_vector_at_site site_spin site_index data =
      ∑ k ∈ Finset.range (data.lookup_tables.neighbors_count site_index),
        data.lookup_tables.interaction_parameters_table
            (data.lookup_tables.neighbors_lookup_index site_index + k) *
          dot3 site_spin
            (get_site_spin_vector
              (data.lookup_tables.neighbors_table
                (data.lookup_tables.neighbors_lookup_index site_index + k))
              data) := by
  unfold compute_energy_of_spin_vector_at_site lookup_neighbor_states
  refine Finset.sum_congr rfl fun k hk => ?_
  rw [Finset.mem_range] at hk
  simp [List.getD_eq_getElem?_getD, List.getElem?_map, List.getElem?_range hk,
    dot3, get_site_spin_vector]

/-- Transcribed from the spec's words for `siteEnergy(site, spin)`: the sum
over the site's neighbor run of
`interaction_parameter[k] * dot(spin, neighborSpin(neighbor_index[k]))`,
with no double-counting correction. -/
def siteEnergy_spec (data : SimulationData α) (site_index : ℕ)
    (site_spin : Vec3 α) : α :=
  ∑ k ∈ Finset.range (data.lookup_tables.neighbors_count site_index),
    data.lookup_tables.interaction_parameters_table
        (data.lookup_tables.neighbors_lookup_index site_index + k) *
      dot3 site_spin
        (get_site_spin_vector
          (data.lookup_tables.neighbors_table
            (data.lookup_tables.neighbors_lookup_index site_index + k))
          data)

/-- C4: for every site and every spin vector, the site energy computed by
`compute_energy_of_spin_vector_at_site` equals the sum, over the site's
neighbor run, of the bond parameter times the dot product of the spin with
the neighbor's current spin, with no double-counting correction applied. -/
theorem site_energy_eq_neighbor_run_sum (data : SimulationData α)
    (site_index : ℕ) (site_spin : Vec3 α) :
    compute_energy_of_spin_vector_at_site site_spin site_index data =
      siteEnergy_spec data site_index site_spin :=
  compute_energy_eval site_spin site_index data

/-! ### The two-site antiparallel scenario (claim C3) -/

/-- A placeholder engine for scenarios that never draw. -/
def twoSiteRng : RandomNumberGenerator ℚ :=
  RandomNumberGenerator.cinit (fun _ _ => 0) (fun _ _ => 0) 42 2

/-- Two sites, each listing the other as its only neighbor with interaction
parameter `J = 1`. -/
def twoSiteTables : LookupTables_t ℚ :=
  { sublattice_table := fun _ => 0
    neighbors_table := fun k => if k = 0 then 1 else 0
    neighbors_count := fun _ => 1
    neighbors_lookup_index := fun i => i
    interaction_parameters_table := fun _ => 1
    number_sites := 2
    number_sublattices := 1 }

/-- Antiparallel spins: `(0,0,+1)` at site 0 and `(0,0,-1)` at site 1. -/
def twoSiteState : HeisenbergState_t ℚ :=
  { x := fun _ => 0, y := fun _ => 0, z := fun i => if i = 0 then 1 else -1 }

/-- The full two-site simulation container of the C3 scenario. -/
def twoSiteData : SimulationData ℚ :=
  { random_number_generator := twoSiteRng
    parameters :=
      { sample_interval := 1
        temperature := 1
        sweeps := 1
        equilibration_sweeps := 0
        snapshot_filepath := false }
    lookup_tables := twoSiteTables
    state := twoSiteState
    trace := { records := [], snapshots := [] }
    estimators :=
      { number_samples := 0
        energy := -1
        spin_vector := fun _ => ⟨0, 0, 0⟩
        magnetization := 0 } }

/-- C3 counterexample: on the two-site antiparallel lattice with `J = 1`,
`compute_total_energy` does not return `+1`. -/
theorem two_site_antiparallel_energy_not_one :
    ¬ compute_total_energy twoSiteData = 1 := by
  norm_num [compute_total_energy, compute_site_energy,
    compute_energy_of_spin_vector_at_site, lookup_neighbor_states,
    get_site_spin_vector, twoSiteData, twoSiteTables, twoSiteState,
    Finset.sum_range_succ]

/-- C3 amended: on the two-site antiparallel lattice with `J = 1`,
`compute_total_energy` returns `-1`: each site contributes
`J * dot = -1`, and the raw sum `-2` is halved. -/
theorem two_site_antiparallel_total_energy :
    compute_total_energy twoSiteData = -1 := by
  norm_num [compute_total_energy, compute_site_energy,
    compute_energy_of_spin_vector_at_site, lookup_neighbor_states,
    get_site_spin_vector, twoSiteData, twoSiteTables, twoSiteState,
    Finset.sum_range_succ]

/-! ### The Metropolis acceptance rule (claim C2) -/

/-- C2: for a trial with energy difference `delta` at temperature `T > 0`,
a strictly downhill trial (`delta < 0`) is accepted unconditionally with no
uniform draw consumed, and otherwise exactly one uniform draw `r` is
consumed and the trial is accepted if and only if
`r ≤ exp(-delta / T)`. -/
theorem metropolis_acceptance_rule (fns : MathFns α)
    (temperature energy_difference : α) (rng : RandomNumberGenerator α)
    (_hT : 0 < temperature) :
    (energy_difference < 0 →
      accept_or_reject fns temperature energy_difference rng = (true, rng)) ∧
    (0 ≤ energy_difference →
      accept_or_reject fns temperature energy_difference rng =
        (decide (rng.uniform.1 ≤
            fns.exp (-energy_difference / temperature)),
          rng.uniform.2)) := by
  constructor
  · intro h
    unfold accept_or_reject
    rw [if_neg (not_le.mpr h)]
  · intro h
    unfold accept_or_reject proposal_distribution
    rw [if_pos h]

/-- A concrete stand-in for the transcendental function parameters, used by
closed witness instantiations that do not depend on their values. -/
def dummyFns : MathFns ℚ :=
  { sin := fun _ => 0
    cos := fun _ => 0
    acos := fun _ => 0
    exp := fun _ => 1
    sqrt := fun _ => 0
    pi := 0 }

/-- A concrete generator state for closed witness instantiations. -/
def dummyRng : RandomNumberGenerator ℚ :=
  RandomNumberGenerator.cinit (fun _ _ => 0) (fun _ _ => 0) 42 3

/-- Witness for C2 at `T = 1`, `delta = -1`: the downhill trial is accepted
with the generator untouched. -/
theorem metropolis_acceptance_rule_witness :
    accept_or_reject dummyFns 1 (-1) dummyRng = (true, dummyRng) :=
  (metropolis_acceptance_rule dummyFns 1 (-1) dummyRng (by norm_num)).1
    (by norm_num)

/-! ### The randint bounds round trip (claim C10) -/

/-- C10: after construction with `(seed, number_sites ≥ 1)`, `randint()`
only yields values in `[0, number_sites - 1]`, yet the `randint_bounds`
getter reports `(0, number_sites)`; writing the getter's own value back
through the setter rebuilds the distribution with inclusive upper bound
`number_sites`, after which an engine draw can make `randint()` return
`number_sites` itself. -/
theorem randint_bounds_round_trip_escapes (uniformEngine : ℕ → ℕ → α)
    (intEngine : ℕ → ℕ → ℕ) (seed number_sites : ℕ)
    (h1 : 1 ≤ number_sites) :
    ((RandomNumberGenerator.cinit uniformEngine intEngine seed
        number_sites : RandomNumberGenerator α).randint.1 ≤
        number_sites - 1) ∧
    ((RandomNumberGenerator.cinit uniformEngine intEngine seed
        number_sites : RandomNumberGenerator α).randint_bounds =
        (0, number_sites)) ∧
    (∃ otherEngine : ℕ → ℕ → ℕ,
      (((RandomNumberGenerator.cinit uniformEngine otherEngine seed
            number_sites : RandomNumberGenerator α).set_randint_bounds
          (RandomNumberGenerator.cinit uniformEngine otherEngine seed
            number_sites : RandomNumberGenerator α).randint_bounds).randint.1 =
        number_sites)) := by
  refine ⟨?_, rfl, ⟨fun _ _ => number_sites, ?_⟩⟩
  · show 0 + intEngine seed 0 % (number_sites - 1 - 0 + 1) ≤ number_sites - 1
    have hw : number_sites - 1 - 0 + 1 = number_sites := by omega
    rw [hw]
    have := Nat.mod_lt (intEngine seed 0) (show 0 < number_sites by omega)
    omega
  · show 0 + number_sites % (number_sites - 0 + 1) = number_sites
    have hw : number_sites - 0 + 1 = number_sites + 1 := by omega
    rw [hw, Nat.mod_eq_of_lt (Nat.lt_succ_self _)]
    omega

/-- Witness for C10 at `number_sites = 3`. -/
theorem randint_bounds_round_trip_escapes_witness :
    ((RandomNumberGenerator.cinit (fun _ _ => (0 : ℚ)) (fun _ _ => 0) 42
        3).randint.1 ≤ 2) ∧
    ((RandomNumberGenerator.cinit (fun _ _ => (0 : ℚ)) (fun _ _ => 0) 42
        3).randint_bounds = (0, 3)) ∧
    (∃ otherEngine : ℕ → ℕ → ℕ,
      (((RandomNumberGenerator.cinit (fun _ _ => (0 : ℚ)) otherEngine 42
            3).set_randint_bounds
          (RandomNumberGenerator.cinit (fun _ _ => (0 : ℚ)) otherEngine 42
            3).randint_bounds).randint.1 = 3)) :=
  randint_bounds_round_trip_escapes (fun _ _ => (0 : ℚ)) (fun _ _ => 0) 42 3
    (by norm_num)

/-! ### Coupling-matrix view of the energy (groundwork for claim C1) -/

/-- Total coupling strength with which site `i` sees site `j`: the sum of
the bond parameters of every entry of `i`'s neighbor run that points at
`j`. -/
def coupling (lt : LookupTables_t α) (i j : ℕ) : α :=
  ∑ k ∈ Finset.range (lt.neighbors_count i),
    if lt.neighbors_table (lt.neighbors_lookup_index i + k) = j then
      lt.interaction_parameters_table (lt.neighbors_lookup_index i + k)
    else 0

/-- Site energy of a spin vector, expressed through the coupling matrix. -/
def couplingSiteEnergy (data : SimulationData α) (m : ℕ) (v : Vec3 α) : α :=
  ∑ j ∈ Finset.range data.lookup_tables.number_sites,
    coupling data.lookup_tables m j * dot3 v (get_site_spin_vector j data)

/-- The raw double-counted energy: every site's coupling-weighted
interaction with every site. -/
def pairEnergy (data : SimulationData α) : α :=
  ∑ i ∈ Finset.range data.lookup_tables.number_sites,
    couplingSiteEnergy data i (get_site_spin_vector i data)

/-- Every entry of an in-range site's neighbor run names an in-range site. -/
def InRangeNeighbors (lt : LookupTables_t α) : Prop :=
  ∀ i < lt.number_sites, ∀ k < lt.neighbors_count i,
    lt.neighbors_table (lt.neighbors_lookup_index i + k) < lt.number_sites

/-- Mutual bonds: the coupling matrix is symmetric on the lattice and has no
self-coupling. -/
def SymmetricTopology (lt : LookupTables_t α) : Prop :=
  (∀ i < lt.number_sites, ∀ j < lt.number_sites,
    coupling lt i j = coupling lt j i) ∧
  (∀ i < lt.number_sites, coupling lt i i = 0)

/-- The dot product is commutative. -/
lemma dot3_comm (a b : Vec3 α) : dot3 a b = dot3 b a := by
  unfold dot3; ring

/-- On an in-range lattice, the neighbor-run site energy equals its
coupling-matrix form. -/
lemma compute_energy_coupling (data : SimulationData α) (m : ℕ)
    (hm : m < data.lookup_tables.number_sites)
    (hin : InRangeNeighbors data.lookup_tables) (v : Vec3 α) :
    compute_energy_of_spin_vector_at_site v m data =
      couplingSiteEnergy data m v := by
  rw [compute_energy_eval]
  unfold couplingSiteEnergy coupling
  rw [eq_comm]
  simp only [Finset.sum_mul, ite_mul, zero_mul]
  rw [Finset.sum_comm]
  refine Finset.sum_congr rfl fun k hk => ?_
  rw [Finset.mem_range] at hk
  rw [Finset.sum_ite_eq, if_pos (Finset.mem_range.mpr (hin m hm k hk))]

/-- On an in-range lattice the total energy halves the raw double-counted
pair energy. -/
lemma total_energy_eq_pair (data : SimulationData α)
    (hin : InRangeNeighbors data.lookup_tables) :
    compute_total_energy data = pairEnergy data / 2 := by
  unfold compute_total_energy pairEnergy compute_site_energy
  congr 1
  refine Finset.sum_congr rfl fun i hi => ?_
  rw [Finset.mem_range] at hi
  exact compute_energy_coupling data i hi hin _

/-- Pure form of the one-site update identity: overwriting position `m` of
the spin field changes the symmetric double sum by twice the change of
`m`'s own coupling-weighted row. -/
lemma double_sum_update {N m : ℕ} (hm : m < N) (c : ℕ → ℕ → α)
    (σ σ' : ℕ → Vec3 α) (v : Vec3 α) (hσm : σ' m = v)
    (hσ : ∀ j, j ≠ m → σ' j = σ j)
    (hs : ∀ i < N, ∀ j < N, c i j = c j i) (hd : ∀ i < N, c i i = 0) :
    ∑ i ∈ Finset.range N, ∑ j ∈ Finset.range N,
        c i j * dot3 (σ' i) (σ' j) =
      (∑ i ∈ Finset.range N, ∑ j ∈ Finset.range N,
        c i j * dot3 (σ i) (σ j)) +
        2 * ((∑ j ∈ Finset.range N, c m j * dot3 v (σ j)) -
          (∑ j ∈ Finset.range N, c m j * dot3 (σ m) (σ j))) := by
  have hm' : m ∈ Finset.range N := Finset.mem_range.mpr hm
  have hterm : ∀ i ∈ Finset.range N, ∀ j ∈ Finset.range N,
      c i j * dot3 (σ' i) (σ' j) =
        c i j * dot3 (σ i) (σ j) +
          ((if i = m then
              c m j * (dot3 v (σ j) - dot3 (σ m) (σ j)) else 0) +
            (if j = m then
              c i m * (dot3 (σ i) v - dot3 (σ i) (σ m)) else 0)) := by
    intro i hi j hj
    rw [Finset.mem_range] at hi hj
    by_cases him : i = m <;> by_cases hjm : j = m
    · rw [him, hjm, hσm, if_pos rfl, if_pos rfl, hd m hm]
      ring
    · rw [him, hσm, hσ j hjm, if_pos rfl, if_neg hjm]
      ring
    · rw [hjm, hσm, hσ i him, if_neg him, if_pos rfl]
      ring
    · rw [hσ i him, hσ j hjm, if_neg him, if_neg hjm]
      ring
  rw [Finset.sum_congr rfl fun i hi =>
    Finset.sum_congr rfl fun j hj => hterm i hi j hj]
  simp only [Finset.sum_add_distrib]
  have hT1 : ∑ i ∈ Finset.range N, ∑ j ∈ Finset.range N,
      (if i = m then c m j * (dot3 v (σ j) - dot3 (σ m) (σ j)) else 0) =
        ∑ j ∈ Finset.range N,
          c m j * (dot3 v (σ j) - dot3 (σ m) (σ j)) := by
    have hinner : ∀ i ∈ Finset.range N,
        (∑ j ∈ Finset.range N,
          if i = m then c m j * (dot3 v (σ j) - dot3 (σ m) (σ j)) else 0) =
          (if i = m then
            (∑ j ∈ Finset.range N,
              c m j * (dot3 v (σ j) - dot3 (σ m) (σ j))) else 0) := by
      intro i _
      split <;> simp
    rw [Finset.sum_congr rfl hinner, Finset.sum_ite_eq', if_pos hm']
  have hT2 : ∑ i ∈ Finset.range N, ∑ j ∈ Finset.range N,
      (if j = m then c i m * (dot3 (σ i) v - dot3 (σ i) (σ m)) else 0) =
        ∑ j ∈ Finset.range N,
          c m j * (dot3 v (σ j) - dot3 (σ m) (σ j)) := by
    have hinner : ∀ i ∈ Finset.range N,
        (∑ j ∈ Finset.range N,
          if j = m then c i m * (dot3 (σ i) v - dot3 (σ i) (σ m)) else 0) =
          c i m * (dot3 (σ i) v - dot3 (σ i) (σ m)) := by
      intro i _
      rw [Finset.sum_ite_eq', if_pos hm']
    rw [Finset.sum_congr rfl hinner]
    refine Finset.sum_congr rfl fun i hi => ?_
    rw [Finset.mem_range] at hi
    rw [hs i hi m hm, dot3_comm (σ i) v, dot3_comm (σ i) (σ m)]
  rw [hT1, hT2]
  have hsub : ∑ j ∈ Finset.range N,
      c m j * (dot3 v (σ j) - dot3 (σ m) (σ j)) =
        (∑ j ∈ Finset.range N, c m j * dot3 v (σ j)) -
          (∑ j ∈ Finset.range N, c m j * dot3 (σ m) (σ j)) := by
    rw [← Finset.sum_sub_distrib]
    exact Finset.sum_congr rfl fun j _ => by ring
  rw [hsub]
  ring

/-- Overwrite one site's spin components, the state mutation performed by
`keep_flip_and_update_state`. -/
def updateSpin (data : SimulationData α) (m : ℕ) (v : Vec3 α) :
    SimulationData α :=
  { data with
    state :=
      { x := Function.update data.state.x m v.x
        y := Function.update data.state.y m v.y
        z := Function.update data.state.z m v.z } }

/-- Reading a site after a one-site overwrite. -/
lemma get_spin_updateSpin (data : SimulationData α) (m : ℕ) (v : Vec3 α)
    (j : ℕ) :
    get_site_spin_vector j (updateSpin data m v) =
      if j = m then v else get_site_spin_vector j data := by
  rcases v with ⟨vx, vy, vz⟩
  unfold get_site_spin_vector updateSpin
  by_cases h : j = m <;> simp [Function.update_apply, h]

/-- On a symmetric lattice, overwriting one in-range site's spin changes the
raw pair energy by twice the change of that site's own row energy. -/
lemma pairEnergy_updateSpin (data : SimulationData α) (m : ℕ) (v : Vec3 α)
    (hm : m < data.lookup_tables.number_sites)
    (hsym : SymmetricTopology data.lookup_tables) :
    pairEnergy (updateSpin data m v) =
      pairEnergy data +
        2 * (couplingSiteEnergy data m v -
          couplingSiteEnergy data m (get_site_spin_vector m data)) := by
  obtain ⟨hs, hd⟩ := hsym
  have hσm : get_site_spin_vector m (updateSpin data m v) = v := by
    rw [get_spin_updateSpin, if_pos rfl]
  have hσ : ∀ j, j ≠ m →
      get_site_spin_vector j (updateSpin data m v) =
        get_site_spin_vector j data := by
    intro j hj
    rw [get_spin_updateSpin, if_neg hj]
  show (∑ i ∈ Finset.range data.lookup_tables.number_sites,
      ∑ j ∈ Finset.range data.lookup_tables.number_sites,
        coupling data.lookup_tables i j *
          dot3 (get_site_spin_vector i (updateSpin data m v))
            (get_site_spin_vector j (updateSpin data m v))) =
    (∑ i ∈ Finset.range data.lookup_tables.number_sites,
      ∑ j ∈ Finset.range data.lookup_tables.number_sites,
        coupling data.lookup_tables i j *
          dot3 (get_site_spin_vector i data) (get_site_spin_vector j data)) +
      2 * ((∑ j ∈ Finset.range data.lookup_tables.number_sites,
          coupling data.lookup_tables m j *
            dot3 v (get_site_spin_vector j data)) -
        (∑ j ∈ Finset.range data.lookup_tables.number_sites,
          coupling data.lookup_tables m j *
            dot3 (get_site_spin_vector m data) (get_site_spin_vector j data)))
  exact double_sum_update hm (coupling data.lookup_tables)
    (fun j => get_site_spin_vector j data)
    (fun j => get_site_spin_vector j (updateSpin data m v)) v hσm hσ hs hd

/-- On an in-range symmetric lattice, overwriting one in-range site's spin
changes the total energy by exactly the difference between scoring the new
spin and scoring the old spin in the site's unmutated neighborhood — the
quantity computed by `flip`. -/
lemma total_energy_updateSpin (data : SimulationData α) (m : ℕ) (v : Vec3 α)
    (hm : m < data.lookup_tables.number_sites)
    (hin : InRangeNeighbors data.lookup_tables)
    (hsym : SymmetricTopology data.lookup_tables) :
    compute_total_energy (updateSpin data m v) =
      compute_total_energy data +
        (compute_energy_of_spin_vector_at_site v m data -
          compute_site_energy m data) := by
  have h1 : compute_total_energy (updateSpin data m v) =
      pairEnergy (updateSpin data m v) / 2 :=
    total_energy_eq_pair (updateSpin data m v) hin
  rw [h1, total_energy_eq_pair data hin, pairEnergy_updateSpin data m v hm hsym,
    compute_energy_coupling data m hm hin v]
  unfold compute_site_energy
  rw [compute_energy_coupling data m hm hin]
  ring

/-! ### Observers of one Metropolis step -/

/-- Derived observer: the site chosen at the start of `step`. -/
def chosenSite (data : SimulationData α) : ℕ :=
  (pick_site data).1

/-- Derived observer: the trial flip proposed by `step`. -/
def proposedFlip (fns : MathFns α) (data : SimulationData α) : TrialFlip_t α :=
  (flip fns (pick_site data).1
    { data with random_number_generator := (pick_site data).2 }).1

/-- Derived observer: the generator state after the proposal inside
`step`. -/
def rngAfterProposal (fns : MathFns α) (data : SimulationData α) :
    RandomNumberGenerator α :=
  (flip fns (pick_site data).1
    { data with random_number_generator := (pick_site data).2 }).2

/-- Derived observer: the accept/reject decision taken by `step`. -/
def acceptDecision (fns : MathFns α) (data : SimulationData α) : Bool :=
  (accept_or_reject fns data.parameters.temperature
    (proposedFlip fns data).energy_difference (rngAfterProposal fns data)).1

/-- Derived observer: the generator state at the end of `step`. -/
def rngAfterStep (fns : MathFns α) (data : SimulationData α) :
    RandomNumberGenerator α :=
  (accept_or_reject fns data.parameters.temperature
    (proposedFlip fns data).energy_difference (rngAfterProposal fns data)).2

/-- `step` in terms of its observers: advance the generator and, exactly on
acceptance, keep the flip. -/
lemma step_characterization (fns : MathFns α) (data : SimulationData α) :
    step fns data =
      if acceptDecision fns data then
        keep_flip_and_update_state
          { data with random_number_generator := rngAfterStep fns data }
          (chosenSite data) (proposedFlip fns data)
      else { data with random_number_generator := rngAfterStep fns data } :=
  rfl

/-- `accept_or_reject` does not touch the integer-distribution parameters. -/
lemma accept_or_reject_dist_a (fns : MathFns α) (t d : α)
    (rng : RandomNumberGenerator α) :
    (accept_or_reject fns t d rng).2.randint_dist_a = rng.randint_dist_a := by
  unfold accept_or_reject
  split <;> rfl

/-- `accept_or_reject` does not touch the integer-distribution parameters. -/
lemma accept_or_reject_dist_b (fns : MathFns α) (t d : α)
    (rng : RandomNumberGenerator α) :
    (accept_or_reject fns t d rng).2.randint_dist_b = rng.randint_dist_b := by
  unfold accept_or_reject
  split <;> rfl

/-- The generator at the end of a step keeps its integer-distribution
parameters. -/
lemma rngAfterStep_dist_a (fns : MathFns α) (data : SimulationData α) :
    (rngAfterStep fns data).randint_dist_a =
      data.random_number_generator.randint_dist_a := by
  unfold rngAfterStep
  rw [accept_or_reject_dist_a]
  rfl

/-- The generator at the end of a step keeps its integer-distribution
parameters. -/
lemma rngAfterStep_dist_b (fns : MathFns α) (data : SimulationData α) :
    (rngAfterStep fns data).randint_dist_b =
      data.random_number_generator.randint_dist_b := by
  unfold rngAfterStep
  rw [accept_or_reject_dist_b]
  rfl

/-- Well-formedness carried through a run: at least one site, the integer
distribution built for `[0, number_sites - 1]`, in-range neighbor entries,
and a symmetric coupling matrix. -/
def WellFormed (data : SimulationData α) : Prop :=
  1 ≤ data.lookup_tables.number_sites ∧
  data.random_number_generator.randint_dist_a = 0 ∧
  data.random_number_generator.randint_dist_b =
    data.lookup_tables.number_sites - 1 ∧
  InRangeNeighbors data.lookup_tables ∧
  SymmetricTopology data.lookup_tables

/-- On a well-formed container, the chosen site is in range. -/
lemma chosenSite_lt (data : SimulationData α) (hwf : WellFormed data) :
    chosenSite data < data.lookup_tables.number_sites := by
  obtain ⟨h1, h2, h3, -, -⟩ := hwf
  show data.random_number_generator.randint_dist_a +
      data.random_number_generator.engineIntStream
          data.random_number_generator.intCount %
        (data.random_number_generator.randint_dist_b -
          data.random_number_generator.randint_dist_a + 1) <
      data.lookup_tables.number_sites
  rw [h2, h3]
  have hw : data.lookup_tables.number_sites - 1 - 0 + 1 =
      data.lookup_tables.number_sites := by omega
  rw [hw]
  have := Nat.mod_lt
    (data.random_number_generator.engineIntStream
      data.random_number_generator.intCount)
    (show 0 < data.lookup_tables.number_sites by omega)
  omega

/-- One Metropolis step preserves well-formedness. -/
lemma step_preserves_wellFormed (fns : MathFns α) (data : SimulationData α)
    (hwf : WellFormed data) : WellFormed (step fns data) := by
  obtain ⟨h1, h2, h3, h4, h5⟩ := hwf
  rw [step_characterization]
  split
  · exact ⟨h1, (rngAfterStep_dist_a fns data).trans h2,
      (rngAfterStep_dist_b fns data).trans h3, h4, h5⟩
  · exact ⟨h1, (rngAfterStep_dist_a fns data).trans h2,
      (rngAfterStep_dist_b fns data).trans h3, h4, h5⟩

/-- One Metropolis step preserves the agreement between the incremental
energy estimator and a fresh total-energy recomputation. -/
lemma step_preserves_energy (fns : MathFns α) (data : SimulationData α)
    (hwf : WellFormed data)
    (he : data.estimators.energy = compute_total_energy data) :
    (step fns data).estimators.energy =
      compute_total_energy (step fns data) := by
  obtain ⟨h1, h2, h3, hin, hsym⟩ := hwf
  have hsite : chosenSite data < data.lookup_tables.number_sites :=
    chosenSite_lt data ⟨h1, h2, h3, hin, hsym⟩
  rw [step_characterization]
  split
  · show data.estimators.energy + (proposedFlip fns data).energy_difference =
      compute_total_energy
        (updateSpin data (chosenSite data)
          (proposedFlip fns data).trial_spin_vector)
    have htf : (proposedFlip fns data).energy_difference =
        compute_energy_of_spin_vector_at_site
            (proposedFlip fns data).trial_spin_vector (chosenSite data) data -
          compute_site_energy (chosenSite data) data := rfl
    rw [htf, he, total_energy_updateSpin data (chosenSite data)
      (proposedFlip fns data).trial_spin_vector hsite hin hsym]
  · exact he

/-- Iterating `step` preserves well-formedness together with the
incremental/recomputed energy agreement. -/
lemma iterate_step_energy (fns : MathFns α) (data : SimulationData α)
    (hwf : WellFormed data)
    (he : data.estimators.energy = compute_total_energy data) (n : ℕ) :
    WellFormed ((step fns)^[n] data) ∧
      ((step fns)^[n] data).estimators.energy =
        compute_total_energy ((step fns)^[n] data) := by
  induction n with
  | zero => exact ⟨hwf, he⟩
  | succ k ih =>
    rw [Function.iterate_succ_apply']
    exact ⟨step_preserves_wellFormed fns _ ih.1,
      step_preserves_energy fns _ ih.1 ih.2⟩

/-! ### Claim C1: incremental energy versus full recomputation -/

/-- C1 amended: on a well-formed lattice — at least one site, the integer
distribution targeting `[0, number_sites - 1]`, neighbor entries in range,
and a symmetric coupling matrix with no self-coupling — every finite
sequence of Metropolis steps (accepted or rejected) keeps the incrementally
maintained `Estimators.energy` equal to a fresh `compute_total_energy`
recomputation, in exact arithmetic, whenever it holds initially. -/
theorem incremental_energy_matches_recomputation (fns : MathFns α)
    (data : SimulationData α) (hwf : WellFormed data)
    (he : data.estimators.energy = compute_total_energy data) (n : ℕ) :
    ((step fns)^[n] data).estimators.energy =
      compute_total_energy ((step fns)^[n] data) :=
  (iterate_step_energy fns data hwf he n).2

/-- Witness for C1 on the mutual two-site lattice after three steps. -/
theorem incremental_energy_matches_recomputation_witness :
    ((step dummyFns)^[3] twoSiteData).estimators.energy =
      compute_total_energy ((step dummyFns)^[3] twoSiteData) :=
  incremental_energy_matches_recomputation dummyFns twoSiteData
    ⟨by norm_num [twoSiteData, twoSiteTables], rfl, rfl,
      by
        intro i hi k hk
        show (if i + k = 0 then 1 else 0) < 2
        split <;> norm_num,
      by
        intro i hi j hj
        simp only [twoSiteData, twoSiteTables] at hi hj ⊢
        interval_cases i <;> interval_cases j <;>
          norm_num [coupling, twoSiteTables, Finset.sum_range_succ],
      by
        intro i hi
        simp only [twoSiteData, twoSiteTables] at hi ⊢
        interval_cases i <;>
          norm_num [coupling, twoSiteTables, Finset.sum_range_succ]⟩
    (by
      norm_num [compute_total_energy, compute_site_energy,
        compute_energy_of_spin_vector_at_site, lookup_neighbor_states,
        get_site_spin_vector, twoSiteData, twoSiteTables, twoSiteState,
        Finset.sum_range_succ])
    3

/-- Generator for the asymmetric-lattice counterexample: every raw draw is
zero, so the first step picks site 0. -/
def asymRng : RandomNumberGenerator ℚ :=
  RandomNumberGenerator.cinit (fun _ _ => 0) (fun _ _ => 0) 0 2

/-- An asymmetric topology: site 0 lists site 1 as a neighbor with `J = 1`,
but site 1 has an empty neighbor list. -/
def asymTables : LookupTables_t ℚ :=
  { sublattice_table := fun _ => 0
    neighbors_table := fun _ => 1
    neighbors_count := fun i => if i = 0 then 1 else 0
    neighbors_lookup_index := fun _ => 0
    interaction_parameters_table := fun _ => 1
    number_sites := 2
    number_sublattices := 1 }

/-- Function parameters chosen so the sampled trial spin is `(0, 0, -1)`. -/
def asymFns : MathFns ℚ :=
  { sin := fun _ => 0
    cos := fun _ => -1
    acos := fun _ => 0
    exp := fun _ => 1
    sqrt := fun _ => 0
    pi := 0 }

/-- Asymmetric-lattice container with both spins `(0, 0, 1)` and a
consistent initial energy estimator of `1/2`. -/
def asymData : SimulationData ℚ :=
  { random_number_generator := asymRng
    parameters :=
      { sample_interval := 1
        temperature := 1
        sweeps := 1
        equilibration_sweeps := 0
        snapshot_filepath := false }
    lookup_tables := asymTables
    state := { x := fun _ => 0, y := fun _ => 0, z := fun _ => 1 }
    trace := { records := [], snapshots := [] }
    estimators :=
      { number_samples := 0
        energy := 1/2
        spin_vector := fun _ => (⟨0, 0, 0⟩ : Vec3 ℚ)
        magnetization := 0 } }

/-- C1 counterexample: on the asymmetric two-site lattice, after one
accepted Metropolis flip at site 0, the incremental energy (`-3/2`) differs
from a fresh recomputation (`-1/2`), even though the two agreed before the
step — so the claim is false for arbitrary (non-mutual) topologies. -/
theorem incremental_energy_claim_fails_asymmetric :
    asymData.estimators.energy = compute_total_energy asymData ∧
    (step asymFns asymData).estimators.energy ≠
      compute_total_energy (step asymFns asymData) := by
  constructor <;>
    norm_num [step, pick_site, flip, sample_random_spin_vector,
      accept_or_reject, proposal_distribution, keep_flip_and_update_state,
      RandomNumberGenerator.uniform, RandomNumberGenerator.randint,
      RandomNumberGenerator.cinit, get_site_spin_vector,
      compute_total_energy, compute_site_energy,
      compute_energy_of_spin_vector_at_site, lookup_neighbor_states,
      asymData, asymTables, asymRng, asymFns, Finset.sum_range_succ,
      Function.update_apply]

/-! ### Claim C5: frame effects of one Metropolis step -/

/-- C5: on acceptance, a step changes exactly the chosen site's spin
(overwritten with the candidate), the running energy (incremented by the
energy difference), and the chosen site's sublattice row of the running
spin-vector sums (incremented by candidate minus previous spin); every
other site's spin, every other sublattice row, the magnetization, the
sample counter and the trace are untouched.  On rejection nothing in the
spin state, the estimators or the trace is mutated. -/
theorem step_frame_effects (fns : MathFns α) (data : SimulationData α) :
    (acceptDecision fns data = true →
      (step fns data).estimators.energy =
        data.estimators.energy + (proposedFlip fns data).energy_difference ∧
      get_site_spin_vector (chosenSite data) (step fns data) =
        (proposedFlip fns data).trial_spin_vector ∧
      (∀ i, i ≠ chosenSite data →
        get_site_spin_vector i (step fns data) =
          get_site_spin_vector i data) ∧
      (step fns data).estimators.spin_vector
          (data.lookup_tables.sublattice_table (chosenSite data)) =
        (data.estimators.spin_vector
            (data.lookup_tables.sublattice_table (chosenSite data))).add
          ((proposedFlip fns data).trial_spin_vector.sub
            (proposedFlip fns data).current_spin_vector) ∧
      (∀ s, s ≠ data.lookup_tables.sublattice_table (chosenSite data) →
        (step fns data).estimators.spin_vector s =
          data.estimators.spin_vector s) ∧
      (step fns data).estimators.magnetization =
        data.estimators.magnetization ∧
      (step fns data).estimators.number_samples =
        data.estimators.number_samples ∧
      (step fns data).trace = data.trace) ∧
    (acceptDecision fns data = false →
      (step fns data).state = data.state ∧
      (step fns data).estimators = data.estimators ∧
      (step fns data).trace = data.trace) := by
  constructor
  · intro h
    rw [step_characterization, if_pos h]
    refine ⟨rfl, ?_, ?_, ?_, ?_, rfl, rfl, rfl⟩
    · have hread := get_spin_updateSpin data (chosenSite data)
        (proposedFlip fns data).trial_spin_vector (chosenSite data)
      rw [if_pos rfl] at hread
      exact hread
    · intro i hi
      have hread := get_spin_updateSpin data (chosenSite data)
        (proposedFlip fns data).trial_spin_vector i
      rw [if_neg hi] at hread
      exact hread
    · exact Function.update_same _ _ _
    · intro s hs
      exact Function.update_noteq hs _ _
  · intro h
    rw [step_characterization, if_neg (by simp [h])]
    exact ⟨rfl, rfl, rfl⟩

/-- Witness for C5 on the asymmetric container, whose first step is an
accepted downhill flip: the incremental energy bookkeeping fires. -/
theorem step_frame_effects_witness :
    (step asymFns asymData).estimators.energy =
      asymData.estimators.energy +
        (proposedFlip asymFns asymData).energy_difference :=
  ((step_frame_effects asymFns asymData).1
    (by
      norm_num [acceptDecision, proposedFlip, rngAfterProposal, pick_site,
        flip, sample_random_spin_vector, accept_or_reject,
        proposal_distribution, RandomNumberGenerator.uniform,
        RandomNumberGenerator.randint, RandomNumberGenerator.cinit,
        get_site_spin_vector, compute_energy_of_spin_vector_at_site,
        lookup_neighbor_states, asymData, asymTables, asymRng, asymFns,
        Finset.sum_range_succ])).1

/-! ### Claim C6: the sweep loop and the sampling condition -/

/-- The sweep's for-loop over `range number_sites` is `number_sites`
iterations of `step`. -/
lemma foldl_step_eq_iterate (fns : MathFns α) (data : SimulationData α)
    (n : ℕ) :
    (List.range n).foldl (fun d _ => step fns d) data =
      (step fns)^[n] data := by
  induction n with
  | zero => rfl
  | succ k ih =>
    rw [List.range_succ, List.foldl_append, ih,
      Function.iterate_succ_apply']
    rfl

/-- A Metropolis step never touches the parameters, the lookup tables, the
trace, the sample counter or the magnetization. -/
lemma step_preserves_frame (fns : MathFns α) (data : SimulationData α) :
    (step fns data).parameters = data.parameters ∧
    (step fns data).lookup_tables = data.lookup_tables ∧
    (step fns data).trace = data.trace ∧
    (step fns data).estimators.number_samples =
      data.estimators.number_samples ∧
    (step fns data).estimators.magnetization =
      data.estimators.magnetization := by
  rw [step_characterization]
  split
  · exact ⟨rfl, rfl, rfl, rfl, rfl⟩
  · exact ⟨rfl, rfl, rfl, rfl, rfl⟩

/-- Iterated Metropolis steps never touch the parameters, the lookup
tables, the trace, the sample counter or the magnetization. -/
lemma iterate_step_preserves_frame (fns : MathFns α)
    (data : SimulationData α) (n : ℕ) :
    ((step fns)^[n] data).parameters = data.parameters ∧
    ((step fns)^[n] data).lookup_tables = data.lookup_tables ∧
    ((step fns)^[n] data).trace = data.trace ∧
    ((step fns)^[n] data).estimators.number_samples =
      data.estimators.number_samples ∧
    ((step fns)^[n] data).estimators.magnetization =
      data.estimators.magnetization := by
  induction n with
  | zero => exact ⟨rfl, rfl, rfl, rfl, rfl⟩
  | succ k ih =>
    rw [Function.iterate_succ_apply']
    obtain ⟨p1, p2, p3, p4, p5⟩ := step_preserves_frame fns ((step fns)^[k] data)
    exact ⟨p1.trans ih.1, p2.trans ih.2.1, p3.trans ih.2.2.1,
      p4.trans ih.2.2.2.1, p5.trans ih.2.2.2.2⟩

/-- Field-level reading of the sampling block. -/
lemma take_sample_fields (fns : MathFns α) (data : SimulationData α)
    (sweep_index : ℕ) :
    (take_sample fns data sweep_index).estimators.number_samples =
      data.estimators.number_samples + 1 ∧
    (take_sample fns data sweep_index).estimators.magnetization =
      sampleMagnetization fns data ∧
    (take_sample fns data sweep_index).trace.records =
      data.trace.records ++ [traceRecordOf fns data sweep_index] ∧
    (take_sample fns data sweep_index).trace.snapshots =
      (if data.parameters.snapshot_filepath = true then
        data.trace.snapshots ++ [sweep_index + 1]
      else data.trace.snapshots) := by
  refine ⟨rfl, rfl, ?_, ?_⟩ <;>
    by_cases h3 : data.parameters.snapshot_filepath = true
  · show (if data.parameters.snapshot_filepath then _ else _ :
      SimulationTrace_t α).records = _
    rw [if_pos h3]
    rfl
  · show (if data.parameters.snapshot_filepath then _ else _ :
      SimulationTrace_t α).records = _
    rw [if_neg (by simpa using h3)]
    rfl
  · show (if data.parameters.snapshot_filepath then _ else _ :
      SimulationTrace_t α).snapshots = _
    rw [if_pos h3, if_pos h3]
  · show (if data.parameters.snapshot_filepath then _ else _ :
      SimulationTrace_t α).snapshots = _
    rw [if_neg (by simpa using h3), if_neg h3]

/-- C6: a sweep performs exactly `number_sites` Metropolis step
invocations, and then performs the sampling actions — recompute the
magnetization as the norm of the summed sublattice spin vectors, increment
`number_samples`, append a trace record, and (when a snapshot destination
is configured) request a snapshot write tagged `sweepIndex + 1` — if and
only if the run is not an equilibration run and
`sweepIndex mod sample_interval = 0`. -/
theorem sweep_step_count_and_sampling (fns : MathFns α)
    (data : SimulationData α) (sweep_index : ℕ)
    (equilibration_run : Bool) :
    sweep fns data sweep_index equilibration_run =
      (if sweep_index % data.parameters.sample_interval = 0 ∧
          equilibration_run = false then
        take_sample fns ((step fns)^[data.lookup_tables.number_sites] data)
          sweep_index
      else (step fns)^[data.lookup_tables.number_sites] data) ∧
    (sweep fns data sweep_index equilibration_run).estimators.number_samples
        =
      (if equilibration_run = false ∧
          sweep_index % data.parameters.sample_interval = 0 then
        data.estimators.number_samples + 1
      else data.estimators.number_samples) ∧
    (sweep fns data sweep_index equilibration_run).estimators.magnetization
        =
      (if equilibration_run = false ∧
          sweep_index % data.parameters.sample_interval = 0 then
        sampleMagnetization fns
          ((step fns)^[data.lookup_tables.number_sites] data)
      else data.estimators.magnetization) ∧
    (sweep fns data sweep_index equilibration_run).trace.records =
      (if equilibration_run = false ∧
          sweep_index % data.parameters.sample_interval = 0 then
        data.trace.records ++
          [traceRecordOf fns
            ((step fns)^[data.lookup_tables.number_sites] data) sweep_index]
      else data.trace.records) ∧
    (sweep fns data sweep_index equilibration_run).trace.snapshots =
      (if (equilibration_run = false ∧
            sweep_index % data.parameters.sample_interval = 0) ∧
          data.parameters.snapshot_filepath = true then
        data.trace.snapshots ++ [sweep_index + 1]
      else data.trace.snapshots) := by
  obtain ⟨hp, hlt, htr, hns, hmag⟩ :=
    iterate_step_preserves_frame fns data data.lookup_tables.number_sites
  have hsweep : sweep fns data sweep_index equilibration_run =
      (if sweep_index % data.parameters.sample_interval = 0 ∧
          equilibration_run = false then
        take_sample fns ((step fns)^[data.lookup_tables.number_sites] data)
          sweep_index
      else (step fns)^[data.lookup_tables.number_sites] data) := by
    show (if sweep_index % data.parameters.sample_interval = 0 ∧
          equilibration_run = false then
        take_sample fns
          ((List.range data.lookup_tables.number_sites).foldl
            (fun d _ => step fns d) data) sweep_index
      else
        (List.range data.lookup_tables.number_sites).foldl
          (fun d _ => step fns d) data) = _
    rw [foldl_step_eq_iterate]
  obtain ⟨t1, t2, t3, t4⟩ := take_sample_fields fns
    ((step fns)^[data.lookup_tables.number_sites] data) sweep_index
  refine ⟨hsweep, ?_, ?_, ?_, ?_⟩ <;> rw [hsweep] <;>
    by_cases h1 : sweep_index % data.parameters.sample_interval = 0 <;>
    by_cases h2 : equilibration_run = false
  · rw [if_pos ⟨h1, h2⟩, if_pos ⟨h2, h1⟩, t1, hns]
  · rw [if_neg (by tauto), if_neg (by tauto)]
    exact hns
  · rw [if_neg (by tauto), if_neg (by tauto)]
    exact hns
  · rw [if_neg (by tauto), if_neg (by tauto)]
    exact hns
  · rw [if_pos ⟨h1, h2⟩, if_pos ⟨h2, h1⟩, t2]
  · rw [if_neg (by tauto), if_neg (by tauto)]
    exact hmag
  · rw [if_neg (by tauto), if_neg (by tauto)]
    exact hmag
  · rw [if_neg (by tauto), if_neg (by tauto)]
    exact hmag
  · rw [if_pos ⟨h1, h2⟩, if_pos ⟨h2, h1⟩, t3, htr]
  · rw [if_neg (by tauto), if_neg (by tauto), htr]
  · rw [if_neg (by tauto), if_neg (by tauto), htr]
  · rw [if_neg (by tauto), if_neg (by tauto), htr]
  · rw [if_pos ⟨h1, h2⟩, t4, hp, htr]
    by_cases h3 : data.parameters.snapshot_filepath = true
    · rw [if_pos h3, if_pos ⟨⟨h2, h1⟩, h3⟩]
    · rw [if_neg h3, if_neg (by tauto)]
  · rw [if_neg (by tauto), if_neg (by tauto), htr]
  · rw [if_neg (by tauto), if_neg (by tauto), htr]
  · rw [if_neg (by tauto), if_neg (by tauto), htr]

/-! ### Claim C7: zero-neighbor sites -/

/-- C7: a site with an empty neighbor run has site energy `0` for every
spin vector, so a trial flip proposed there has energy difference `0`, and
— because the proposal probability is `exp(-0/T) = 1` and the uniform draw
lies in `[0, 1)` — the acceptance comparison `r ≤ p` always succeeds. -/
theorem zero_neighbor_site_always_accepted (fns : MathFns α)
    (data : SimulationData α) (site_index : ℕ)
    (hcount : data.lookup_tables.neighbors_count site_index = 0)
    (hexp : fns.exp 0 = 1) :
    (∀ v, compute_energy_of_spin_vector_at_site v site_index data = 0) ∧
    (flip fns site_index data).1.energy_difference = 0 ∧
    (∀ rng : RandomNumberGenerator α,
      0 ≤ rng.uniformStream rng.uniformCount →
      rng.uniformStream rng.uniformCount < 1 →
      (accept_or_reject fns data.parameters.temperature
        (flip fns site_index data).1.energy_difference rng).1 = true) := by
  have hzero : ∀ v,
      compute_energy_of_spin_vector_at_site v site_index data = 0 := by
    intro v
    rw [compute_energy_eval, hcount]
    simp
  have hdiff : (flip fns site_index data).1.energy_difference = 0 := by
    show compute_energy_of_spin_vector_at_site _ site_index data -
      compute_energy_of_spin_vector_at_site _ site_index data = 0
    rw [hzero, hzero, sub_zero]
  refine ⟨hzero, hdiff, ?_⟩
  intro rng h0 h1
  rw [hdiff]
  unfold accept_or_reject proposal_distribution
  rw [if_pos le_rfl, neg_zero, zero_div, hexp]
  simp [RandomNumberGenerator.uniform, h1.le]

/-- Witness for C7 at site 1 of the asymmetric container, which has an
empty neighbor run. -/
theorem zero_neighbor_site_always_accepted_witness :
    (flip asymFns 1 asymData).1.energy_difference = 0 :=
  (zero_neighbor_site_always_accepted asymFns asymData 1 rfl rfl).2.1

/-! ### Claim C8: the unit-sphere invariant over the real numbers -/

/-- The actual transcendental functions of `libc.math` / numpy.  This is a
theorem-side instantiation over `ℝ` (the engine definitions themselves stay
generic and executable), so it cannot carry executable code. -/
noncomputable def realFns : MathFns ℝ :=
  { sin := Real.sin
    cos := Real.cos
    acos := Real.arccos
    exp := Real.exp
    sqrt := Real.sqrt
    pi := Real.pi }

/-- Every sampled trial spin has exact unit squared norm over `ℝ`. -/
lemma sample_unit_norm (data : SimulationData ℝ) :
    normSq (sample_random_spin_vector realFns data).1 = 1 := by
  show Real.sin (Real.arccos _) * Real.cos _ *
      (Real.sin (Real.arccos _) * Real.cos _) +
      Real.sin (Real.arccos _) * Real.sin _ *
        (Real.sin (Real.arccos _) * Real.sin _) +
      Real.cos (Real.arccos _) * Real.cos (Real.arccos _) = 1
  have key : ∀ φ θ : ℝ,
      Real.sin φ * Real.cos θ * (Real.sin φ * Real.cos θ) +
        Real.sin φ * Real.sin θ * (Real.sin φ * Real.sin θ) +
        Real.cos φ * Real.cos φ = 1 := by
    intro φ θ
    have ht : Real.cos θ ^ 2 + Real.sin θ ^ 2 = 1 :=
      Real.cos_sq_add_sin_sq θ
    have hp : Real.sin φ ^ 2 + Real.cos φ ^ 2 = 1 :=
      Real.sin_sq_add_cos_sq φ
    nlinarith [ht, hp]
  exact key _ _

/-- C8: every candidate spin produced by `sample_random_spin_vector` has
unit Euclidean norm in exact real arithmetic, and consequently a Metropolis
step preserves the per-site unit-norm invariant of the spin state. -/
theorem unit_sphere_invariant :
    (∀ data : SimulationData ℝ,
      normSq (sample_random_spin_vector realFns data).1 = 1) ∧
    (∀ data : SimulationData ℝ,
      (∀ i, normSq (get_site_spin_vector i data) = 1) →
      ∀ i, normSq (get_site_spin_vector i (step realFns data)) = 1) := by
  refine ⟨sample_unit_norm, ?_⟩
  intro data hall i
  rw [step_characterization]
  split
  · have hread : get_site_spin_vector i
        (keep_flip_and_update_state
          { data with random_number_generator := rngAfterStep realFns data }
          (chosenSite data) (proposedFlip realFns data)) =
        if i = chosenSite data then
          (proposedFlip realFns data).trial_spin_vector
        else get_site_spin_vector i data :=
      get_spin_updateSpin data (chosenSite data)
        (proposedFlip realFns data).trial_spin_vector i
    rw [hread]
    split
    · exact sample_unit_norm
        { data with random_number_generator := (pick_site data).2 }
    · exact hall i
  · exact hall i

/-- Concrete all-up real container for the C8 witness; it lives over `ℝ`
for the sake of the real trigonometric functions, so it carries no
executable code. -/
noncomputable def unitData : SimulationData ℝ :=
  { random_number_generator :=
      RandomNumberGenerator.cinit (fun _ _ => 0) (fun _ _ => 0) 42 2
    parameters :=
      { sample_interval := 1
        temperature := 1
        sweeps := 1
        equilibration_sweeps := 0
        snapshot_filepath := false }
    lookup_tables :=
      { sublattice_table := fun _ => 0
        neighbors_table := fun k => if k = 0 then 1 else 0
        neighbors_count := fun _ => 1
        neighbors_lookup_index := fun i => i
        interaction_parameters_table := fun _ => 1
        number_sites := 2
        number_sublattices := 1 }
    state := { x := fun _ => 0, y := fun _ => 0, z := fun _ => 1 }
    trace := { records := [], snapshots := [] }
    estimators :=
      { number_samples := 0
        energy := 1
        spin_vector := fun _ => (⟨0, 0, 0⟩ : Vec3 ℝ)
        magnetization := 0 } }

/-- Witness for C8: from the all-up unit state, site 0 is still unit after
one real Metropolis step. -/
theorem unit_sphere_invariant_witness :
    normSq (get_site_spin_vector 0 (step realFns unitData)) = 1 :=
  unit_sphere_invariant.2 unitData
    (by
      intro i
      norm_num [normSq, dot3, get_site_spin_vector, unitData])
    0

/-! ### Claim C9: determinism of a run -/

/-- Agreement on everything the stepping logic reads: generator state,
parameters, topology and spin state (the estimators and the trace never
feed back into a step's choices). -/
def SameCore (d1 d2 : SimulationData α) : Prop :=
  d1.random_number_generator = d2.random_number_generator ∧
  d1.parameters = d2.parameters ∧
  d1.lookup_tables = d2.lookup_tables ∧
  d1.state = d2.state

/-- A step's choices and its core effects are blind to the estimators and
the trace. -/
lemma step_core_agree (fns : MathFns α) (r : RandomNumberGenerator α)
    (p : SimulationParameters_t α) (l : LookupTables_t α)
    (s : HeisenbergState_t α) (t1 t2 : SimulationTrace_t α)
    (e1 e2 : Estimators_t α) :
    chosenSite (⟨r, p, l, s, t1, e1⟩ : SimulationData α) =
      chosenSite (⟨r, p, l, s, t2, e2⟩ : SimulationData α) ∧
    acceptDecision fns ⟨r, p, l, s, t1, e1⟩ =
      acceptDecision fns ⟨r, p, l, s, t2, e2⟩ ∧
    (step fns ⟨r, p, l, s, t1, e1⟩).random_number_generator =
      (step fns ⟨r, p, l, s, t2, e2⟩).random_number_generator ∧
    (step fns ⟨r, p, l, s, t1, e1⟩).parameters =
      (step fns ⟨r, p, l, s, t2, e2⟩).parameters ∧
    (step fns ⟨r, p, l, s, t1, e1⟩).lookup_tables =
      (step fns ⟨r, p, l, s, t2, e2⟩).lookup_tables ∧
    (step fns ⟨r, p, l, s, t1, e1⟩).state =
      (step fns ⟨r, p, l, s, t2, e2⟩).state := by
  have hacc : acceptDecision fns
      (⟨r, p, l, s, t2, e2⟩ : SimulationData α) =
      acceptDecision fns (⟨r, p, l, s, t1, e1⟩ : SimulationData α) := rfl
  refine ⟨rfl, rfl, ?_, ?_, ?_, ?_⟩ <;>
    · rw [step_characterization, step_characterization, hacc]
      cases hb : acceptDecision fns
        (⟨r, p, l, s, t1, e1⟩ : SimulationData α) <;> simp [hb] <;> rfl

/-- One step preserves core agreement and issues the same site choice and
accept decision on both sides. -/
lemma sameCore_step (fns : MathFns α) {d1 d2 : SimulationData α}
    (h : SameCore d1 d2) :
    SameCore (step fns d1) (step fns d2) ∧
      chosenSite d1 = chosenSite d2 ∧
      acceptDecision fns d1 = acceptDecision fns d2 := by
  obtain ⟨h1, h2, h3, h4⟩ := h
  rcases d1 with ⟨r1, p1, l1, s1, t1, e1⟩
  rcases d2 with ⟨r2, p2, l2, s2, t2, e2⟩
  cases h1; cases h2; cases h3; cases h4
  obtain ⟨a1, a2, a3, a4, a5, a6⟩ := step_core_agree fns r1 p1 l1 s1 t1 t2 e1 e2
  exact ⟨⟨a3, a4, a5, a6⟩, a1, a2⟩

/-- Core agreement persists through any number of steps. -/
lemma sameCore_iterate (fns : MathFns α) (d1 d2 : SimulationData α)
    (h : SameCore d1 d2) (n : ℕ) :
    SameCore ((step fns)^[n] d1) ((step fns)^[n] d2) := by
  induction n with
  | zero => exact h
  | succ k ih =>
    rw [Function.iterate_succ_apply', Function.iterate_succ_apply']
    exact (sameCore_step fns ih).1

/-- C9: two runs with the same generator state (same seed), the same
topology, the same parameters and the same initial spin state choose the
same sites, take the same accept/reject decisions and traverse the same
spin states at every step; with equal initial estimators and trace the
entire containers — estimator values included — coincide at every step and
after `run_sweeps`. -/
theorem run_sweeps_deterministic (fns : MathFns α)
    (d1 d2 : SimulationData α) (equilibration_run : Bool)
    (hrng : d1.random_number_generator = d2.random_number_generator)
    (hpar : d1.parameters = d2.parameters)
    (hlt : d1.lookup_tables = d2.lookup_tables)
    (hst : d1.state = d2.state) :
    (∀ n, chosenSite ((step fns)^[n] d1) = chosenSite ((step fns)^[n] d2) ∧
      acceptDecision fns ((step fns)^[n] d1) =
        acceptDecision fns ((step fns)^[n] d2) ∧
      ((step fns)^[n] d1).state = ((step fns)^[n] d2).state) ∧
    (d1.estimators = d2.estimators → d1.trace = d2.trace →
      (∀ n, (step fns)^[n] d1 = (step fns)^[n] d2) ∧
      run_sweeps fns d1 equilibration_run =
        run_sweeps fns d2 equilibration_run) := by
  constructor
  · intro n
    have hc := sameCore_iterate fns d1 d2 ⟨hrng, hpar, hlt, hst⟩ n
    have hs := sameCore_step fns hc
    exact ⟨hs.2.1, hs.2.2, hc.2.2.2⟩
  · intro hest htrace
    have h12 : d1 = d2 := by
      rcases d1 with ⟨r1, p1, l1, s1, t1, e1⟩
      rcases d2 with ⟨r2, p2, l2, s2, t2, e2⟩
      cases hrng; cases hpar; cases hlt; cases hst; cases hest; cases htrace
      rfl
    subst h12
    exact ⟨fun n => rfl, rfl⟩

/-- The two-site container with scrambled estimators and trace, used to
witness that stepping choices ignore those fields. -/
def twoSiteDataAlt : SimulationData ℚ :=
  { twoSiteData with
    estimators :=
      { number_samples := 5
        energy := 7
        spin_vector := fun _ => (⟨1, 2, 3⟩ : Vec3 ℚ)
        magnetization := 9 } }

/-- Witness for C9: after two steps from cores that agree (estimators
deliberately different), the spin states coincide. -/
theorem run_sweeps_deterministic_witness :
    ((step dummyFns)^[2] twoSiteData).state =
      ((step dummyFns)^[2] twoSiteDataAlt).state :=
  ((run_sweeps_deterministic dummyFns twoSiteData twoSiteDataAlt false
    rfl rfl rfl rfl).1 2).2.2

end Spyns
